import Mathlib

/-!
Shallow embedding of `benc.h` (single-header C benchmarking library).

Modelling conventions:
- C `float` arithmetic is idealized as exact rational arithmetic (`ℚ`);
  `sqrt` on floats is idealized as `Real.sqrt` on `ℝ`.
- Machine integers keep their wrap-around semantics: `uint32_t` counters are
  reduced mod `2 ^ 32`, `uint64_t` accumulators mod `2 ^ 64`.
- `fprintf` output is modelled as pure data: either strings (where every
  printed quantity is computable) or a record of the values placed in the
  printed slots (where a slot holds a real number such as the stddev).
- The `FILE*` sink and the opaque `void*` data pointer are modelled as an
  abstract handle (`ℕ`) and an `Option ℕ`.
- The user-supplied benchmarked function `fn` is modelled by an oracle
  `d : ℕ → ℕ` giving the measured duration of each loop iteration, and the
  unbounded `while` loop is run on explicit fuel (`none` = still running).
-/

/-- Model of the value/level loop of `bench_human_number` (benc.h lines 39-46):
`while (number >= threshold && ++level <= level_cap) number /= threshold;`.
Note the increment of `level` happens inside the condition, so when the cap
check fails the level is still left incremented and the value undivided. -/
def bhnLoop (q : ℚ) (level cap : ℕ) : ℚ × ℕ :=
  if 1000 ≤ q then
    if level + 1 ≤ cap then bhnLoop (q / 1000) (level + 1) cap
    else (q, level + 1)
  else (q, level)
termination_by cap - level
decreasing_by omega

/-- Rendering of a number with printf format `%.2f` (two decimal places),
idealized over `ℚ`. -/
def fmt2 (q : ℚ) : String :=
  let m : ℕ := (round (|q| * 100)).toNat
  let ip : ℕ := m / 100
  let fp : ℕ := m % 100
  (if q < 0 then "-" else "") ++ toString ip ++ "." ++
    (if fp < 10 then "0" ++ toString fp else toString fp)

/-- Model of `bench_human_number` (benc.h lines 39-64): scale the number by
levels of 1000 (cap 3 for times, 4 for counts) and append the level's unit
suffix; times use ns/us/ms/s, counts use no suffix/k/m/b/t. -/
def bench_human_number (number : ℚ) (time : Bool) : String :=
  let level_cap : ℕ := if time then 3 else 4
  let r := bhnLoop number 0 level_cap
  if time then
    match r.2 with
    | 0 => fmt2 r.1 ++ "ns"
    | 1 => fmt2 r.1 ++ "us"
    | 2 => fmt2 r.1 ++ "ms"
    | _ => fmt2 r.1 ++ "s"
  else
    match r.2 with
    | 0 => fmt2 r.1
    | 1 => fmt2 r.1 ++ "k"
    | 2 => fmt2 r.1 ++ "m"
    | 3 => fmt2 r.1 ++ "b"
    | _ => fmt2 r.1 ++ "t"

/-- Model of `bench_stats_t` (benc.h lines 159-164): `count` is a `uint32_t`
(kept below `2 ^ 32`), `total` a `uint64_t` (kept below `2 ^ 64`), and the
`float` fields `mean` and `d_squared` are idealized as rationals. -/
structure bench_stats_t where
  count : ℕ
  total : ℕ
  mean : ℚ
  d_squared : ℚ
deriving DecidableEq, Repr

/-- Model of `bench_stats_init` (benc.h lines 171-176): the zeroed state. -/
def bench_stats_init : bench_stats_t := ⟨0, 0, 0, 0⟩

/-- Model of `bench_stats_push` (benc.h lines 184-193): increment `count`
(uint32 wrap), add the value to `total` (uint64 wrap), then perform the
Welford update on `mean` and `d_squared` using the incremented count. -/
def bench_stats_push (s : bench_stats_t) (value : ℕ) : bench_stats_t :=
  let v64 : ℕ := value % 2 ^ 64
  let count : ℕ := (s.count + 1) % 2 ^ 32
  let total : ℕ := (s.total + v64) % 2 ^ 64
  let new_mean : ℚ := s.mean + ((v64 : ℚ) - s.mean) / (count : ℚ)
  let d_squared_increment : ℚ := ((v64 : ℚ) - new_mean) * ((v64 : ℚ) - s.mean)
  ⟨count, total, new_mean, s.d_squared + d_squared_increment⟩

/-- Push a whole list of values, first element first. -/
def pushList (s : bench_stats_t) (l : List ℕ) : bench_stats_t :=
  l.foldl bench_stats_push s

/-- Model of `bench_stats_variance` (benc.h lines 201-203):
`d_squared / count`. -/
def bench_stats_variance (s : bench_stats_t) : ℚ :=
  s.d_squared / (s.count : ℚ)

/-- Model of `bench_stats_stddev` (benc.h lines 211-213):
`sqrt(variance)`, idealized into the reals. -/
noncomputable def bench_stats_stddev (s : bench_stats_t) : ℝ :=
  Real.sqrt ((bench_stats_variance s : ℚ) : ℝ)

/-- Model of `bench_stats_ops_per_sec` (benc.h lines 221-223):
`((float) count / (float) total) * SECONDS` with `SECONDS = 1000000000`. -/
def bench_stats_ops_per_sec (s : bench_stats_t) : ℚ :=
  ((s.count : ℚ) / (s.total : ℚ)) * 1000000000

/-- The values placed into the three printed slots of `bench_stats_print`
(benc.h lines 231-236), which renders
`<ops> i/s (±<sd>%) (<mean>/i)`: `ops_slot` is the value handed to
`bench_human_number(out, ops_per_sec, false)`, `sd_slot` the value printed
with `%.2f` between the plus-minus sign and the percent sign, and
`mean_slot` the value handed to `bench_human_number(out, mean, true)`. -/
structure bench_stats_line where
  ops_slot : ℚ
  sd_slot : ℝ
  mean_slot : ℚ

/-- Model of `bench_stats_print` (benc.h lines 231-236) as the triple of
values placed in the printed slots. -/
noncomputable def bench_stats_print (s : bench_stats_t) : bench_stats_line :=
  ⟨bench_stats_ops_per_sec s, bench_stats_stddev s, s.mean⟩

/-- Model of `bench_measurement_t` (benc.h lines 244-247). -/
structure bench_measurement_t where
  name : String
  stats : bench_stats_t
deriving DecidableEq, Repr

/-- Model of `_bench_compare_measurement` (benc.h lines 357-367), the qsort
comparator: -1 when the first measurement has more operations per second,
1 when fewer, 0 on a tie. -/
def _bench_compare_measurement (a b : bench_measurement_t) : Int :=
  if bench_stats_ops_per_sec b.stats < bench_stats_ops_per_sec a.stats then -1
  else if bench_stats_ops_per_sec a.stats < bench_stats_ops_per_sec b.stats then 1
  else 0

/-- The ordering induced by the qsort comparator: `a` may come before `b`
exactly when the comparator does not require the opposite order. -/
def bench_ops_le (a b : bench_measurement_t) : Prop :=
  _bench_compare_measurement a b ≤ 0

instance : DecidableRel bench_ops_le :=
  fun a b => inferInstanceAs (Decidable (_bench_compare_measurement a b ≤ 0))

/-- One rendered entry of the comparison report of `bench_compare`
(benc.h lines 401-412): the first (fastest) entry, or a subsequent entry
with its percent-slower figure `(mean / fastest_mean) * 100 - 100`. -/
inductive bench_compare_entry where
  | fastest (name : String)
  | slower (name : String) (pct : ℚ)
deriving DecidableEq, Repr

/-- Rendering loop of `bench_compare` (benc.h lines 399-412) over the sorted
measurement list: the first entry is marked fastest and every later entry
gets `(stats->mean / first->mean) * 100 - 100` percent slower. -/
def bench_compare_render : List bench_measurement_t → List bench_compare_entry
  | [] => []
  | f :: rest =>
      .fastest f.name ::
        rest.map (fun m =>
          .slower m.name ((m.stats.mean / f.stats.mean) * 100 - 100))

/-- Model of `bench_compare` (benc.h lines 388-416): only when more than one
measurement exists, sort by descending operations per second (the qsort
comparator order) and render the ranking report; otherwise no report. -/
def bench_compare (ms : List bench_measurement_t) :
    Option (List bench_compare_entry) :=
  if 1 < ms.length then
    some (bench_compare_render (List.insertionSort bench_ops_le ms))
  else none

/-- Model of `bench_t` (benc.h lines 272-279): the `FILE*` sink is an
abstract handle, the `void* data` slot an `Option ℕ`, `indent` a C `int`,
`target_time` a `uint64_t` nanosecond count. -/
structure bench_t where
  name : String
  out : ℕ
  indent : Int
  data : Option ℕ
  target_time : ℕ
  measurements : List bench_measurement_t
deriving DecidableEq, Repr

/-- The indentation printed by `_bench_print_indent` (benc.h lines 302-306):
one space per level; a non-positive indent prints nothing. -/
def indentString (indent : Int) : String :=
  String.mk (List.replicate indent.toNat ' ')

/-- Model of `bench_create` (benc.h lines 323-346) on its success path:
build the suite (with `target_time = SECONDS` and an empty measurement
list) and emit the header lines — the version banner only when `indent`
is 0, then the indented `# <name>` line. Returns the suite together with
the list of emitted lines. -/
def bench_create (name : String) (out : ℕ) (indent : Int) (data : Option ℕ) :
    bench_t × List String :=
  (⟨name, out, indent, data, 1000000000, []⟩,
    (if indent = 0 then ["benc.h v1.0.0"] else []) ++
      [indentString indent ++ "# " ++ name])

/-- The lines emitted by `bench_compare` (benc.h lines 392-412): when a
report is produced, the indented `Comparing...` header followed by one
indented entry line per measurement, with percentages rendered by `%.2f`. -/
def bench_compare_lines (b : bench_t) : List String :=
  match bench_compare b.measurements with
  | none => []
  | some entries =>
      (indentString b.indent ++ "Comparing...") ::
        entries.map (fun e =>
          match e with
          | .fastest n => indentString b.indent ++ "  - " ++ n ++ " (fastest)"
          | .slower n pct =>
              indentString b.indent ++ "  - " ++ n ++ " (" ++ fmt2 pct ++
                "% slower)")

/-- Model of `bench_group` (benc.h lines 452-456): create a child suite on
the parent's sink with indent `parent + 2`, run the body, then run the
child's comparison — all before returning. The body `fn` is modelled as a
function from the child suite to its final state plus the lines it wrote.
The result is the full transcript of lines written by the group call. -/
def bench_group (b : bench_t) (name : String)
    (fn : bench_t → bench_t × List String) (ptr : Option ℕ) : List String :=
  let created := bench_create name b.out (b.indent + 2) ptr
  let r := fn created.1
  created.2 ++ r.2 ++ bench_compare_lines r.1

/-- Model of the sampling loop of `bench_measure` (benc.h lines 543-548):
`while (m->stats.total < b->target_time) { ...; bench_stats_push(...); }`.
The duration of the call at iteration `i` is given by the oracle `d i`;
`fuel` bounds how many iterations we unfold, `none` meaning the loop has
not yet terminated within that fuel. -/
def bench_measure_loop (d : ℕ → ℕ) (target : ℕ) :
    ℕ → bench_stats_t → ℕ → Option bench_stats_t
  | fuel, s, i =>
    if s.total < target then
      match fuel with
      | 0 => none
      | f + 1 => bench_measure_loop d target f (bench_stats_push s (d i)) (i + 1)
    else some s

/-- Model of `bench_measure` (benc.h lines 523-553) after the header print:
a measurement is allocated and `bench_array_push` is called, but its boolean
result is discarded (`pushOk` records whether that push succeeded); the
sampling loop then runs unconditionally and the function returns 0.
The result is `none` while the loop is still running, otherwise the suite's
final measurement list, the final stats, and the C return value. -/
def bench_measure (ms : List bench_measurement_t) (name : String)
    (pushOk : Bool) (d : ℕ → ℕ) (target fuel : ℕ) :
    Option (List bench_measurement_t × bench_stats_t × Int) :=
  match bench_measure_loop d target fuel bench_stats_init 0 with
  | none => none
  | some s => some ((if pushOk then ms ++ [⟨name, s⟩] else ms), s, 0)

/-- Concrete measurement A of the claim C3 example: 1000 operations per
second (1 sample of 1000000 ns). -/
def benchA : bench_measurement_t := ⟨"A", ⟨1, 1000000, 1000000, 0⟩⟩

/-- Concrete measurement B of the claim C3 example: 2000 operations per
second (1 sample of 500000 ns). -/
def benchB : bench_measurement_t := ⟨"B", ⟨1, 500000, 500000, 0⟩⟩

/-- Concrete measurement C of the claim C3 example: 500 operations per
second (1 sample of 2000000 ns). -/
def benchC : bench_measurement_t := ⟨"C", ⟨1, 2000000, 2000000, 0⟩⟩

/-- A degenerate duration oracle: the clock deltas are zero for the first
`2 ^ 32 - 1` loop iterations (a very coarse monotonic clock returning the
same timestamp at both reads) and 1 nanosecond afterwards. -/
def d0 : ℕ → ℕ := fun i => if i < 2 ^ 32 - 1 then 0 else 1

/-- A concrete root suite used to instantiate the grouping claim. -/
def benchRoot : bench_t := (bench_create "root" 7 0 none).1

/-- A concrete group body that adds no measurements and writes nothing. -/
def benchSubFn : bench_t → bench_t × List String := fun c => (c, [])

/-! Helper lemmas about the statistics accumulator. -/

/-- Pushing a value increments the count by one as long as the `uint32_t`
counter does not wrap. -/
theorem bench_stats_push_count (s : bench_stats_t) (v : ℕ)
    (h : s.count + 1 < 2 ^ 32) :
    (bench_stats_push s v).count = s.count + 1 := by
  simp only [bench_stats_push, Nat.mod_eq_of_lt h]

/-- Pushing a value adds it to the running total modulo `2 ^ 64`. -/
theorem bench_stats_push_total (s : bench_stats_t) (v : ℕ) :
    (bench_stats_push s v).total = (s.total + v) % 2 ^ 64 := by
  simp only [bench_stats_push]
  conv_lhs => rw [Nat.add_mod]
  rw [Nat.mod_mod_of_dvd v dvd_rfl, ← Nat.add_mod]

/-- The mean update of `bench_stats_push` is exactly the Welford step
`new_mean = mean + (value - mean) / count` with the incremented count. -/
theorem bench_stats_push_mean (s : bench_stats_t) (v : ℕ)
    (hv : v < 2 ^ 64) (h : s.count + 1 < 2 ^ 32) :
    (bench_stats_push s v).mean
      = s.mean + ((v : ℚ) - s.mean) / ((s.count : ℚ) + 1) := by
  have e1 : v % 2 ^ 64 = v := Nat.mod_eq_of_lt hv
  have e2 : (s.count + 1) % 2 ^ 32 = s.count + 1 := Nat.mod_eq_of_lt h
  simp only [bench_stats_push, e1, e2]
  push_cast
  ring_nf

/-- The sum-of-squared-deviations update of `bench_stats_push` is exactly
`d_squared += (value - new_mean) * (value - mean)`. -/
theorem bench_stats_push_dsq (s : bench_stats_t) (v : ℕ)
    (hv : v < 2 ^ 64) (h : s.count + 1 < 2 ^ 32) :
    (bench_stats_push s v).d_squared
      = s.d_squared
        + ((v : ℚ) - (s.mean + ((v : ℚ) - s.mean) / ((s.count : ℚ) + 1)))
          * ((v : ℚ) - s.mean) := by
  have e1 : v % 2 ^ 64 = v := Nat.mod_eq_of_lt hv
  have e2 : (s.count + 1) % 2 ^ 32 = s.count + 1 := Nat.mod_eq_of_lt h
  simp only [bench_stats_push, e1, e2]
  push_cast
  ring_nf

/-- Closed form of the accumulator state after pushing a whole list of
durations, as long as the `uint32_t` counter does not wrap: the count is
the length, the total is the sum modulo `2 ^ 64`, the mean is the
arithmetic mean, and `d_squared` is `sum of squares - (sum)^2 / n`. -/
theorem pushList_spec (l : List ℕ) (hlen : l.length < 2 ^ 32)
    (hval : ∀ v ∈ l, v < 2 ^ 64) :
    (pushList bench_stats_init l).count = l.length
    ∧ (pushList bench_stats_init l).total = l.sum % 2 ^ 64
    ∧ (pushList bench_stats_init l).mean
        = (l.map (fun v : ℕ => (v : ℚ))).sum / (l.length : ℚ)
    ∧ (pushList bench_stats_init l).d_squared
        = (l.map (fun v : ℕ => (v : ℚ) ^ 2)).sum
          - ((l.map (fun v : ℕ => (v : ℚ))).sum) ^ 2 / (l.length : ℚ) := by
  induction l using List.reverseRecOn with
  | nil => simp [pushList, bench_stats_init]
  | append_singleton l a ih =>
    have hlen1 : l.length + 1 < 2 ^ 32 := by simpa using hlen
    have ha : a < 2 ^ 64 := hval a (by simp)
    obtain ⟨hc, ht, hm, hd⟩ := ih (by omega) (fun v hv => hval v (by simp [hv]))
    have hfold : pushList bench_stats_init (l ++ [a])
        = bench_stats_push (pushList bench_stats_init l) a := by
      simp [pushList, List.foldl_append]
    have hcnt : (pushList bench_stats_init l).count + 1 < 2 ^ 32 := by
      rw [hc]; exact hlen1
    rw [hfold, bench_stats_push_count _ _ hcnt, bench_stats_push_total,
      bench_stats_push_mean _ _ ha hcnt, bench_stats_push_dsq _ _ ha hcnt,
      hc, ht, hm, hd]
    refine ⟨by simp, ?_, ?_, ?_⟩
    · rw [Nat.mod_add_mod]
      simp [List.sum_append]
    · simp only [List.map_append, List.sum_append, List.map_cons,
        List.sum_cons, List.map_nil, List.sum_nil, List.length_append,
        List.length_cons, List.length_nil]
      rcases Nat.eq_zero_or_pos l.length with h0 | hpos
      · have hnil : l = [] := List.length_eq_zero.mp h0
        subst hnil
        norm_num
      · have hnQ : (l.length : ℚ) ≠ 0 := Nat.cast_ne_zero.mpr (by omega)
        have hn1Q : (l.length : ℚ) + 1 ≠ 0 := by positivity
        push_cast
        field_simp
        ring
    · simp only [List.map_append, List.sum_append, List.map_cons,
        List.sum_cons, List.map_nil, List.sum_nil, List.length_append,
        List.length_cons, List.length_nil]
      rcases Nat.eq_zero_or_pos l.length with h0 | hpos
      · have hnil : l = [] := List.length_eq_zero.mp h0
        subst hnil
        norm_num
      · have hnQ : (l.length : ℚ) ≠ 0 := Nat.cast_ne_zero.mpr (by omega)
        have hn1Q : (l.length : ℚ) + 1 ≠ 0 := by positivity
        push_cast
        field_simp
        ring

/-- Expansion of a sum of squared deviations from an arbitrary center. -/
theorem sum_sq_dev_eq (l : List ℚ) (c : ℚ) :
    (l.map (fun x => (x - c) ^ 2)).sum
      = (l.map (fun x => x ^ 2)).sum - 2 * c * l.sum + l.length * c ^ 2 := by
  induction l with
  | nil => simp
  | cons x l ih =>
    simp only [List.map_cons, List.sum_cons, List.length_cons, ih]
    push_cast
    ring

/-- For a nonempty list of durations (without counter wrap), the variance
returned by `bench_stats_variance` is the population variance: the mean of
the squared deviations from the arithmetic mean. -/
theorem variance_pop (l : List ℕ) (hlen : l.length < 2 ^ 32)
    (hval : ∀ v ∈ l, v < 2 ^ 64) (hne : l ≠ []) :
    bench_stats_variance (pushList bench_stats_init l)
      = (l.map (fun v : ℕ =>
          ((v : ℚ) - (l.map (fun v : ℕ => (v : ℚ))).sum / (l.length : ℚ)) ^ 2)).sum
        / (l.length : ℚ) := by
  obtain ⟨hc, ht, hm, hd⟩ := pushList_spec l hlen hval
  have hnQ : (l.length : ℚ) ≠ 0 :=
    Nat.cast_ne_zero.mpr (fun h => hne (List.length_eq_zero.mp h))
  rw [bench_stats_variance, hc, hd]
  rw [show (l.map (fun v : ℕ =>
      ((v : ℚ) - (l.map (fun v : ℕ => (v : ℚ))).sum / (l.length : ℚ)) ^ 2))
      = ((l.map (fun v : ℕ => (v : ℚ))).map
          (fun x => (x - (l.map (fun v : ℕ => (v : ℚ))).sum / (l.length : ℚ)) ^ 2))
    from by rw [List.map_map]; rfl]
  rw [sum_sq_dev_eq]
  simp only [List.length_map, List.map_map, Function.comp_def]
  field_simp
  ring

/-! Helper lemmas about the sampling loop. -/

/-- The sampling loop exits (without touching the stats) as soon as the
accumulated total is not below the target. -/
theorem bench_measure_loop_exit (d : ℕ → ℕ) (target fuel : ℕ)
    (s : bench_stats_t) (i : ℕ) (h : ¬ s.total < target) :
    bench_measure_loop d target fuel s i = some s := by
  cases fuel with
  | zero => rw [bench_measure_loop]; simp [h]
  | succ f => rw [bench_measure_loop]; simp [h]

/-- While the accumulated total is below the target, the loop runs the
body once (pushing the next duration) and continues. -/
theorem bench_measure_loop_step (d : ℕ → ℕ) (target fuel : ℕ)
    (s : bench_stats_t) (i : ℕ) (h : s.total < target) :
    bench_measure_loop d target (fuel + 1) s i
      = bench_measure_loop d target fuel (bench_stats_push s (d i)) (i + 1) := by
  rw [bench_measure_loop]
  simp [h]

/-- With no fuel left and the target not reached, the loop is still
running. -/
theorem bench_measure_loop_none (d : ℕ → ℕ) (target : ℕ)
    (s : bench_stats_t) (i : ℕ) (h : s.total < target) :
    bench_measure_loop d target 0 s i = none := by
  rw [bench_measure_loop]
  simp [h]

/-- Invariant of a completed sampling loop: the final total reached the
target, and (absent `uint32_t` wrap within the available fuel) the count
never decreases and strictly increases when the loop actually entered its
body. -/
theorem bench_measure_loop_invariant (d : ℕ → ℕ) (target : ℕ) :
    ∀ (fuel : ℕ) (s : bench_stats_t) (i : ℕ) (s' : bench_stats_t),
      s.count + fuel < 2 ^ 32 →
      bench_measure_loop d target fuel s i = some s' →
      target ≤ s'.total ∧ s.count ≤ s'.count
        ∧ (s.total < target → s.count < s'.count) := by
  intro fuel
  induction fuel with
  | zero =>
    intro s i s' hb hrun
    by_cases h : s.total < target
    · rw [bench_measure_loop_none d target s i h] at hrun
      exact absurd hrun (by simp)
    · rw [bench_measure_loop_exit d target 0 s i h] at hrun
      have hs : s = s' := by simpa using hrun
      subst hs
      exact ⟨by omega, le_refl _, fun hlt => absurd hlt h⟩
  | succ f ih =>
    intro s i s' hb hrun
    by_cases h : s.total < target
    · rw [bench_measure_loop_step d target f s i h] at hrun
      have hc : (bench_stats_push s (d i)).count = s.count + 1 :=
        bench_stats_push_count s (d i) (by omega)
      have hrec := ih (bench_stats_push s (d i)) (i + 1) s' (by omega) hrun
      refine ⟨hrec.1, ?_, ?_⟩
      · have := hrec.2.1
        omega
      · intro _
        have := hrec.2.1
        omega
    · rw [bench_measure_loop_exit d target (f + 1) s i h] at hrun
      have hs : s = s' := by simpa using hrun
      subst hs
      exact ⟨by omega, le_refl _, fun hlt => absurd hlt h⟩

/-! Helper lemmas about the comparison order. -/

/-- The qsort comparator order coincides with descending operations per
second. -/
theorem bench_ops_le_iff (a b : bench_measurement_t) :
    bench_ops_le a b
      ↔ bench_stats_ops_per_sec b.stats ≤ bench_stats_ops_per_sec a.stats := by
  unfold bench_ops_le _bench_compare_measurement
  split_ifs with h1 h2
  · simp [le_of_lt h1]
  · constructor
    · intro h
      exact absurd h (by norm_num)
    · intro h
      exact absurd (lt_of_le_of_lt h h2) (lt_irrefl _)
  · constructor
    · intro _
      exact le_of_not_lt h2
    · intro _
      norm_num

instance : IsTotal bench_measurement_t bench_ops_le where
  total a b := by
    rw [bench_ops_le_iff, bench_ops_le_iff]
    exact le_total _ _

instance : IsTrans bench_measurement_t bench_ops_le where
  trans a b c hab hbc := by
    rw [bench_ops_le_iff] at *
    exact le_trans hbc hab

/-! Helper lemmas for the counter-wrap scenarios. -/

/-- Pushing a zero duration onto a state with zero total, mean and
`d_squared` only steps the (wrapping) counter. -/
theorem bench_stats_push_zero (c : ℕ) :
    bench_stats_push ⟨c, 0, 0, 0⟩ 0 = ⟨(c + 1) % 2 ^ 32, 0, 0, 0⟩ := by
  simp [bench_stats_push]

/-- Pushing one more value onto a state whose counter is `2 ^ 32 - 1`
wraps the `uint32_t` counter to zero. -/
theorem bench_stats_push_wrap :
    bench_stats_push ⟨2 ^ 32 - 1, 0, 0, 0⟩ 1 = ⟨0, 1, 0, 1⟩ := by
  simp [bench_stats_push]

/-- The state after pushing `k` zero durations into a fresh accumulator:
everything stays zero except the counter, which wraps modulo `2 ^ 32`. -/
theorem pushList_replicate_zero (k : ℕ) :
    pushList bench_stats_init (List.replicate k 0)
      = ⟨k % 2 ^ 32, 0, 0, 0⟩ := by
  induction k with
  | zero => simp [pushList, bench_stats_init]
  | succ k ih =>
    rw [List.replicate_succ']
    have : pushList bench_stats_init (List.replicate k 0 ++ [0])
        = bench_stats_push (pushList bench_stats_init (List.replicate k 0)) 0 := by
      simp [pushList, List.foldl_append]
    rw [this, ih, bench_stats_push_zero, Nat.mod_add_mod]

/-- Driving the sampling loop with the degenerate oracle `d0` and a
1-nanosecond target from a state with `k` (mod-`2 ^ 32`) samples already
counted and zero total: the loop runs until index `2 ^ 32 - 1`, where the
final 1-nanosecond duration both reaches the target and wraps the
`uint32_t` counter to zero. -/
theorem bench_measure_loop_wrap :
    ∀ (fuel k : ℕ), k + fuel = 2 ^ 32 → 1 ≤ fuel →
      bench_measure_loop d0 1 fuel ⟨k % 2 ^ 32, 0, 0, 0⟩ k
        = some ⟨0, 1, 0, 1⟩ := by
  intro fuel
  induction fuel with
  | zero => intro k hk h1; omega
  | succ f ih =>
    intro k hk _
    rw [bench_measure_loop_step _ _ _ _ _ (by norm_num)]
    by_cases hkN : k < 2 ^ 32 - 1
    · have hd : d0 k = 0 := by unfold d0; rw [if_pos hkN]
      rw [hd, bench_stats_push_zero, Nat.mod_add_mod]
      exact ih (k + 1) (by omega) (by omega)
    · have hkeq : k = 2 ^ 32 - 1 := by omega
      subst hkeq
      have hd : d0 (2 ^ 32 - 1) = 1 := by unfold d0; rw [if_neg (lt_irrefl _)]
      rw [hd, Nat.mod_eq_of_lt (by norm_num), bench_stats_push_wrap]
      exact bench_measure_loop_exit _ _ _ _ _ (by norm_num)

/-! Claim theorems. -/

/-- Claim C1 (amended): over the idealized (exact) float arithmetic, for
every nonempty sequence of fewer than `2 ^ 32` durations — so the
`uint32_t` sample counter cannot wrap — pushed into a fresh accumulator,
the `mean` field equals the arithmetic mean of the sequence and
`bench_stats_variance` returns the population variance; moreover the push
performs exactly the Welford update
`new_mean = mean + (value - mean) / count` and
`d_squared += (value - new_mean) * (value - mean)`; in particular pushing
`[10, 20, 30]` yields mean 20 and variance 200/3. -/
theorem benc_claim_C1 (l : List ℕ) (hne : l ≠ []) (hlen : l.length < 2 ^ 32)
    (hval : ∀ v ∈ l, v < 2 ^ 64) :
    (pushList bench_stats_init l).mean
        = (l.map (fun v : ℕ => (v : ℚ))).sum / (l.length : ℚ)
    ∧ bench_stats_variance (pushList bench_stats_init l)
        = (l.map (fun v : ℕ =>
            ((v : ℚ) - (l.map (fun v : ℕ => (v : ℚ))).sum / (l.length : ℚ)) ^ 2)).sum
          / (l.length : ℚ)
    ∧ (∀ (t : bench_stats_t) (v : ℕ), v < 2 ^ 64 → t.count + 1 < 2 ^ 32 →
        (bench_stats_push t v).mean
            = t.mean + ((v : ℚ) - t.mean) / ((t.count : ℚ) + 1)
          ∧ (bench_stats_push t v).d_squared
            = t.d_squared
              + ((v : ℚ) - (bench_stats_push t v).mean) * ((v : ℚ) - t.mean))
    ∧ (pushList bench_stats_init [10, 20, 30]).mean = 20
    ∧ bench_stats_variance (pushList bench_stats_init [10, 20, 30]) = 200 / 3 := by
  refine ⟨(pushList_spec l hlen hval).2.2.1, variance_pop l hlen hval hne,
    ?_, ?_, ?_⟩
  · intro t v hv hc
    refine ⟨bench_stats_push_mean t v hv hc, ?_⟩
    rw [bench_stats_push_dsq t v hv hc, bench_stats_push_mean t v hv hc]
  · norm_num [pushList, bench_stats_push, bench_stats_init]
  · norm_num [pushList, bench_stats_push, bench_stats_init,
      bench_stats_variance]

/-- Witness for claim C1 at the concrete sequence `[10, 20, 30]`. -/
theorem benc_claim_C1_witness :
    (pushList bench_stats_init [10, 20, 30]).mean = 20
    ∧ bench_stats_variance (pushList bench_stats_init [10, 20, 30]) = 200 / 3 :=
  ⟨(benc_claim_C1 [10, 20, 30] (by decide) (by norm_num) (by decide)).2.2.2.1,
   (benc_claim_C1 [10, 20, 30] (by decide) (by norm_num) (by decide)).2.2.2.2⟩

/-- Counterexample to claim C1 as stated (for every `n ≥ 1`): after
`2 ^ 32` zero durations the `uint32_t` counter has wrapped to zero, so
pushing one final duration of 1 leaves `mean = 1`, while the arithmetic
mean of the sequence is `1 / (2 ^ 32 + 1)`. -/
theorem benc_claim_C1_cex :
    (pushList bench_stats_init (List.replicate (2 ^ 32) 0 ++ [1])).mean
      ≠ ((List.replicate (2 ^ 32) 0 ++ [1]).map (fun v : ℕ => (v : ℚ))).sum
        / ((List.replicate (2 ^ 32) 0 ++ [1]).length : ℚ) := by
  have h1 : pushList bench_stats_init (List.replicate (2 ^ 32) 0 ++ [1])
      = bench_stats_push (pushList bench_stats_init (List.replicate (2 ^ 32) 0)) 1 := by
    rw [pushList, pushList, List.foldl_append, List.foldl_cons, List.foldl_nil]
  have h2 : (pushList bench_stats_init (List.replicate (2 ^ 32) 0 ++ [1])).mean
      = 1 := by
    rw [h1, pushList_replicate_zero, Nat.mod_self]
    rw [bench_stats_push_mean ⟨0, 0, 0, 0⟩ 1 (by norm_num) (by norm_num)]
    norm_num
  have h3 : ((List.replicate (2 ^ 32) 0 ++ [1]).map (fun v : ℕ => (v : ℚ))).sum
      = 1 := by
    rw [List.map_append, List.sum_append, List.map_replicate, List.sum_replicate]
    rw [List.map_cons, List.map_nil, List.sum_cons, List.sum_nil]
    norm_num
  have h4 : ((List.replicate (2 ^ 32) 0 ++ [1]).length : ℚ) = 2 ^ 32 + 1 := by
    rw [List.length_append, List.length_replicate]
    norm_num
  rw [h2, h3, h4]
  norm_num
/-- Claim C2: the sampling loop of `bench_measure` continues exactly while
the accumulated measured time `stats.total` is smaller than the suite's
`target_time`, and (for a positive target) it always executes at least one
iteration: when the first measured duration already reaches or exceeds the
target, the loop stops after exactly 1 iteration with `count = 1`, never
after zero iterations. -/
theorem benc_claim_C2 (d : ℕ → ℕ) (target : ℕ) (h1 : 1 ≤ target)
    (h2 : target ≤ d 0) (h3 : d 0 < 2 ^ 64) :
    (∀ (fuel : ℕ) (s : bench_stats_t) (i : ℕ), ¬ s.total < target →
        bench_measure_loop d target fuel s i = some s)
    ∧ (∀ (fuel : ℕ) (s : bench_stats_t) (i : ℕ), s.total < target →
        bench_measure_loop d target (fuel + 1) s i
          = bench_measure_loop d target fuel (bench_stats_push s (d i)) (i + 1))
    ∧ (∀ fuel : ℕ, bench_measure_loop d target (fuel + 1) bench_stats_init 0
        = some (bench_stats_push bench_stats_init (d 0)))
    ∧ (bench_stats_push bench_stats_init (d 0)).count = 1 := by
  have hpt : (bench_stats_push bench_stats_init (d 0)).total = d 0 := by
    rw [bench_stats_push_total]
    simp only [bench_stats_init]
    rw [Nat.zero_add, Nat.mod_eq_of_lt h3]
  refine ⟨fun fuel s i h => bench_measure_loop_exit d target fuel s i h,
    fun fuel s i h => bench_measure_loop_step d target fuel s i h, ?_, ?_⟩
  · intro fuel
    rw [bench_measure_loop_step d target fuel bench_stats_init 0
      (by simp [bench_stats_init]; omega)]
    exact bench_measure_loop_exit d target fuel _ 1 (by omega)
  · rw [bench_stats_push_count bench_stats_init (d 0) (by simp [bench_stats_init])]
    simp [bench_stats_init]

/-- Witness for claim C2: a 2-second first call under a 1-second target
stops the loop after exactly one iteration. -/
theorem benc_claim_C2_witness :
    bench_measure_loop (fun _ => 2000000000) 1000000000 1 bench_stats_init 0
      = some (bench_stats_push bench_stats_init 2000000000)
    ∧ (bench_stats_push bench_stats_init 2000000000).count = 1 :=
  ⟨(benc_claim_C2 (fun _ => 2000000000) 1000000000 (by norm_num) (by norm_num)
      (by norm_num)).2.2.1 0,
   (benc_claim_C2 (fun _ => 2000000000) 1000000000 (by norm_num) (by norm_num)
      (by norm_num)).2.2.2⟩

/-- Claim C7 (amended): when the sampling loop of `bench_measure`
completes within fewer than `2 ^ 32` iterations (so the `uint32_t` sample
counter cannot wrap) for a target of at least 1 nanosecond, the final
statistics satisfy `count ≥ 1` and `total ≥ target_time > 0`, so the
divisions by `count` in `bench_stats_variance` and by `total` in
`bench_stats_ops_per_sec` are over nonzero denominators. -/
theorem benc_claim_C7 (d : ℕ → ℕ) (target fuel : ℕ) (s' : bench_stats_t)
    (h1 : 1 ≤ target) (hf : fuel < 2 ^ 32)
    (hrun : bench_measure_loop d target fuel bench_stats_init 0 = some s') :
    1 ≤ s'.count ∧ target ≤ s'.total ∧ 0 < s'.total
    ∧ ((s'.count : ℚ) ≠ 0) ∧ ((s'.total : ℚ) ≠ 0)
    ∧ bench_stats_variance s' = s'.d_squared / (s'.count : ℚ)
    ∧ bench_stats_ops_per_sec s'
        = ((s'.count : ℚ) / (s'.total : ℚ)) * 1000000000 := by
  have inv := bench_measure_loop_invariant d target fuel bench_stats_init 0 s'
    (by simpa [bench_stats_init] using hf) hrun
  have hcount : 0 < s'.count := by
    have := inv.2.2 (by simp [bench_stats_init]; omega)
    simpa [bench_stats_init] using this
  refine ⟨hcount, inv.1, by omega, ?_, ?_, rfl, rfl⟩
  · exact Nat.cast_ne_zero.mpr (by omega)
  · have : 0 < s'.total := by omega
    exact Nat.cast_ne_zero.mpr (by omega)

/-- Witness for claim C7 at a loop that completes after one 2-second
iteration under a 1-second target. -/
theorem benc_claim_C7_witness :
    1 ≤ (bench_stats_push bench_stats_init 2000000000).count
    ∧ 1000000000 ≤ (bench_stats_push bench_stats_init 2000000000).total
    ∧ 0 < (bench_stats_push bench_stats_init 2000000000).total
    ∧ (((bench_stats_push bench_stats_init 2000000000).count : ℚ) ≠ 0)
    ∧ (((bench_stats_push bench_stats_init 2000000000).total : ℚ) ≠ 0)
    ∧ bench_stats_variance (bench_stats_push bench_stats_init 2000000000)
        = (bench_stats_push bench_stats_init 2000000000).d_squared
          / ((bench_stats_push bench_stats_init 2000000000).count : ℚ)
    ∧ bench_stats_ops_per_sec (bench_stats_push bench_stats_init 2000000000)
        = (((bench_stats_push bench_stats_init 2000000000).count : ℚ)
            / ((bench_stats_push bench_stats_init 2000000000).total : ℚ))
          * 1000000000 :=
  benc_claim_C7 (fun _ => 2000000000) 1000000000 1
    (bench_stats_push bench_stats_init 2000000000) (by norm_num) (by norm_num)
    (by rw [bench_measure_loop_step _ _ _ _ _ (by simp [bench_stats_init])]
        exact bench_measure_loop_exit _ _ _ _ _
          (by rw [bench_stats_push_total]; simp [bench_stats_init]))

/-- Counterexample to claim C7 as stated (no bound on the number of
iterations): with a 1-nanosecond target and the degenerate oracle `d0`
(2 ^ 32 - 1 zero durations, then 1 nanosecond), the sampling loop
completes, yet the final `uint32_t` count has wrapped to 0, so the
division by `count` in `bench_stats_variance` is a division by zero. -/
theorem benc_claim_C7_cex :
    bench_measure_loop d0 1 (2 ^ 32) bench_stats_init 0 = some ⟨0, 1, 0, 1⟩
    ∧ (⟨0, 1, 0, 1⟩ : bench_stats_t).count = 0 := by
  constructor
  · have h := bench_measure_loop_wrap (2 ^ 32) 0 (by norm_num) (by norm_num)
    simpa [bench_stats_init] using h
  · rfl

/-- Claim C10: after exactly one push of a value `v` into a fresh
accumulator the state is `count = 1`, `total = v`, `mean = v` and
`d_squared = 0`, so variance and standard deviation of a single-sample
measurement are both 0. -/
theorem benc_claim_C10 (v : ℕ) (hv : v < 2 ^ 64) :
    (bench_stats_push bench_stats_init v).count = 1
    ∧ (bench_stats_push bench_stats_init v).total = v
    ∧ (bench_stats_push bench_stats_init v).mean = (v : ℚ)
    ∧ (bench_stats_push bench_stats_init v).d_squared = 0
    ∧ bench_stats_variance (bench_stats_push bench_stats_init v) = 0
    ∧ bench_stats_stddev (bench_stats_push bench_stats_init v) = 0 := by
  have hc : (bench_stats_push bench_stats_init v).count = 1 := by
    rw [bench_stats_push_count bench_stats_init v (by simp [bench_stats_init])]
    simp [bench_stats_init]
  have ht : (bench_stats_push bench_stats_init v).total = v := by
    rw [bench_stats_push_total]
    simp only [bench_stats_init]
    rw [Nat.zero_add, Nat.mod_eq_of_lt hv]
  have hm : (bench_stats_push bench_stats_init v).mean = (v : ℚ) := by
    rw [bench_stats_push_mean bench_stats_init v hv (by simp [bench_stats_init])]
    simp [bench_stats_init]
  have hd : (bench_stats_push bench_stats_init v).d_squared = 0 := by
    rw [bench_stats_push_dsq bench_stats_init v hv (by simp [bench_stats_init])]
    simp [bench_stats_init]
  have hvar : bench_stats_variance (bench_stats_push bench_stats_init v) = 0 := by
    rw [bench_stats_variance, hd, hc]
    norm_num
  refine ⟨hc, ht, hm, hd, hvar, ?_⟩
  rw [bench_stats_stddev, hvar]
  simp

/-- Witness for claim C10 at the concrete value 42. -/
theorem benc_claim_C10_witness :
    (bench_stats_push bench_stats_init 42).count = 1
    ∧ (bench_stats_push bench_stats_init 42).total = 42
    ∧ (bench_stats_push bench_stats_init 42).mean = ((42 : ℕ) : ℚ)
    ∧ (bench_stats_push bench_stats_init 42).d_squared = 0
    ∧ bench_stats_variance (bench_stats_push bench_stats_init 42) = 0
    ∧ bench_stats_stddev (bench_stats_push bench_stats_init 42) = 0 :=
  benc_claim_C10 42 (by norm_num)
/-- Claim C3: `bench_compare` emits a ranking report if and only if the
suite holds two or more measurements; when emitted, the report renders a
permutation of the measurements sorted by descending operations per
second, with the first entry marked fastest and every later entry
annotated with `(mean / fastest_mean) * 100 - 100` percent slower; for
measurement A at 1000/s, B at 2000/s and C at 500/s the order is B, A, C
(A 100 percent slower, C 300 percent slower), and a single measurement
produces no report. -/
theorem benc_claim_C3 (ms : List bench_measurement_t) :
    ((bench_compare ms).isSome ↔ 1 < ms.length)
    ∧ (∀ r, bench_compare ms = some r →
        ∃ s, s.Perm ms
          ∧ s.Sorted (fun a b =>
              bench_stats_ops_per_sec b.stats ≤ bench_stats_ops_per_sec a.stats)
          ∧ r = bench_compare_render s)
    ∧ bench_compare [benchA, benchB, benchC]
        = some [.fastest "B", .slower "A" 100, .slower "C" 300]
    ∧ bench_compare [benchA] = none := by
  refine ⟨?_, ?_, ?_, ?_⟩
  · by_cases h : 1 < ms.length <;> simp [bench_compare, h]
  · intro r hr
    by_cases h : 1 < ms.length
    · refine ⟨List.insertionSort bench_ops_le ms,
        List.perm_insertionSort bench_ops_le ms, ?_, ?_⟩
      · exact (List.sorted_insertionSort bench_ops_le ms).imp
          (fun hab => (bench_ops_le_iff _ _).mp hab)
      · simp only [bench_compare, if_pos h] at hr
        exact (Option.some_inj.mp hr).symm
    · simp [bench_compare, h] at hr
  · norm_num [bench_compare, List.insertionSort, List.orderedInsert,
      bench_ops_le, _bench_compare_measurement, bench_stats_ops_per_sec,
      benchA, benchB, benchC, bench_compare_render]
  · norm_num [bench_compare]

/-- Witness for claim C3 at the concrete measurements A, B, C. -/
theorem benc_claim_C3_witness :
    (bench_compare [benchA, benchB, benchC]).isSome
    ∧ ∃ s, s.Perm [benchA, benchB, benchC]
        ∧ s.Sorted (fun a b =>
            bench_stats_ops_per_sec b.stats ≤ bench_stats_ops_per_sec a.stats)
        ∧ ([bench_compare_entry.fastest "B", .slower "A" 100, .slower "C" 300]
            : List bench_compare_entry) = bench_compare_render s :=
  ⟨((benc_claim_C3 [benchA, benchB, benchC]).1).mpr (by norm_num),
   (benc_claim_C3 [benchA, benchB, benchC]).2.1 _
      ((benc_claim_C3 [benchA, benchB, benchC]).2.2.1)⟩

/-- Claim C4: for every statistics record with positive total,
`bench_stats_ops_per_sec` returns `count / total * 1e9` (a division over a
nonzero denominator); in particular for `count = 100` and
`total = 1000000000` it returns exactly 100. -/
theorem benc_claim_C4 (s : bench_stats_t) (h : 0 < s.total) :
    bench_stats_ops_per_sec s = ((s.count : ℚ) / (s.total : ℚ)) * 1000000000
    ∧ ((s.total : ℚ) ≠ 0)
    ∧ (∀ m dsq : ℚ, bench_stats_ops_per_sec ⟨100, 1000000000, m, dsq⟩ = 100) := by
  refine ⟨rfl, Nat.cast_ne_zero.mpr (by omega), ?_⟩
  intro m dsq
  norm_num [bench_stats_ops_per_sec]

/-- Witness for claim C4 at `count = 100`, `total = 1000000000`. -/
theorem benc_claim_C4_witness :
    bench_stats_ops_per_sec ⟨100, 1000000000, 0, 0⟩
        = (((100 : ℕ) : ℚ) / ((1000000000 : ℕ) : ℚ)) * 1000000000
    ∧ (((1000000000 : ℕ) : ℚ) ≠ 0)
    ∧ (∀ m dsq : ℚ, bench_stats_ops_per_sec ⟨100, 1000000000, m, dsq⟩ = 100) :=
  benc_claim_C4 ⟨100, 1000000000, 0, 0⟩ (by norm_num)
/-- Counterexample to claim C5 as stated: the number printed between the
plus-minus sign and the percent sign is not the relative standard
deviation percentage. For the samples `[10, 30]` the mean is 20 ns and
the standard deviation 10, so the relative figure would be 50, but the
printed slot holds 10 (the absolute standard deviation). -/
theorem benc_claim_C5_cex :
    ¬ ((bench_stats_print (pushList bench_stats_init [10, 30])).sd_slot
        = (bench_stats_stddev (pushList bench_stats_init [10, 30])
            / (((pushList bench_stats_init [10, 30]).mean : ℚ) : ℝ)) * 100) := by
  intro h
  have hm : (pushList bench_stats_init [10, 30]).mean = 20 := by
    norm_num [pushList, bench_stats_push, bench_stats_init]
  have hv : bench_stats_variance (pushList bench_stats_init [10, 30]) = 100 := by
    norm_num [pushList, bench_stats_push, bench_stats_init, bench_stats_variance]
  have hsd : bench_stats_stddev (pushList bench_stats_init [10, 30]) = 10 := by
    rw [bench_stats_stddev, hv]
    rw [show (((100 : ℚ) : ℝ)) = 10 ^ 2 by norm_num]
    exact Real.sqrt_sq (by norm_num)
  have hslot : (bench_stats_print (pushList bench_stats_init [10, 30])).sd_slot
      = bench_stats_stddev (pushList bench_stats_init [10, 30]) := rfl
  rw [hslot, hsd, hm] at h
  norm_num at h

/-- Claim C5 (amended): the summary line rendered for a measurement has
the form `<name> - <throughput><unit> i/s (±<p>%) (<mean><unit>/i)` where
the slots hold the throughput, `p`, and the mean per-iteration duration,
and the number `p` printed between the plus-minus sign and the percent
sign is the absolute standard deviation of the per-iteration durations in
nanoseconds (the square root of the population variance of the pushed
samples), not a percentage relative to the mean. -/
theorem benc_claim_C5 (l : List ℕ) (hne : l ≠ []) (hlen : l.length < 2 ^ 32)
    (hval : ∀ v ∈ l, v < 2 ^ 64) :
    (∀ s : bench_stats_t,
        (bench_stats_print s).ops_slot = bench_stats_ops_per_sec s
        ∧ (bench_stats_print s).sd_slot = bench_stats_stddev s
        ∧ (bench_stats_print s).mean_slot = s.mean)
    ∧ (bench_stats_print (pushList bench_stats_init l)).sd_slot
        = Real.sqrt ((((l.map (fun v : ℕ =>
            ((v : ℚ) - (l.map (fun v : ℕ => (v : ℚ))).sum / (l.length : ℚ)) ^ 2)).sum
          / (l.length : ℚ) : ℚ)) : ℝ) := by
  refine ⟨fun s => ⟨rfl, rfl, rfl⟩, ?_⟩
  have hslot : (bench_stats_print (pushList bench_stats_init l)).sd_slot
      = bench_stats_stddev (pushList bench_stats_init l) := rfl
  rw [hslot, bench_stats_stddev, variance_pop l hlen hval hne]

/-- Witness for the amended claim C5 at the sample list `[10, 30]`. -/
theorem benc_claim_C5_witness :
    (bench_stats_print (pushList bench_stats_init [10, 30])).sd_slot
      = Real.sqrt (((([10, 30] : List ℕ).map (fun v : ℕ =>
          ((v : ℚ) - (([10, 30] : List ℕ).map (fun v : ℕ => (v : ℚ))).sum
            / (([10, 30] : List ℕ).length : ℚ)) ^ 2)).sum
        / (([10, 30] : List ℕ).length : ℚ) : ℚ) : ℝ) :=
  (benc_claim_C5 [10, 30] (by decide) (by norm_num) (by decide)).2

/-- Claim C6 (code evaluated at the failing input): when
`bench_array_push` fails (`pushOk = false`), `bench_measure` still enters
the sampling loop (the final stats show one completed iteration), the
measurement is silently missing from the suite's list, and the function
returns 0 — no failure signal reaches the caller, contradicting the
spec's failure semantics. -/
theorem benc_claim_C6 :
    bench_measure [] "dropped" false (fun _ => 2000000000) 1000000000 1
      = some ([], bench_stats_push bench_stats_init 2000000000, 0)
    ∧ (bench_stats_push bench_stats_init 2000000000).count = 1 := by
  constructor
  · rw [bench_measure, bench_measure_loop, bench_measure_loop]
    norm_num [bench_stats_init, bench_stats_push]
  · rw [bench_stats_push_count bench_stats_init 2000000000
      (by simp [bench_stats_init])]
    simp [bench_stats_init]
/-- Claim C8: `bench_group` creates a child suite with the parent's
output sink, indent equal to the parent's indent plus 2, and a target
time of 1 second (1000000000 ns); the child prints the version banner
only when its indent is 0 — so a child of a suite with nonnegative
indent emits only its indented `# <name>` header — and the transcript of
`bench_group` is the child's header lines, then the body's output, then
the child's comparison report, all before `bench_group` returns. -/
theorem benc_claim_C8 (b : bench_t) (name : String)
    (fn : bench_t → bench_t × List String) (ptr : Option ℕ)
    (hind : 0 ≤ b.indent) :
    (bench_create name b.out (b.indent + 2) ptr).1.out = b.out
    ∧ (bench_create name b.out (b.indent + 2) ptr).1.indent = b.indent + 2
    ∧ (bench_create name b.out (b.indent + 2) ptr).1.target_time = 1000000000
    ∧ (bench_create name b.out (b.indent + 2) ptr).2
        = [indentString (b.indent + 2) ++ "# " ++ name]
    ∧ (∀ (nm : String) (o : ℕ) (dat : Option ℕ),
        (bench_create nm o 0 dat).2
          = ["benc.h v1.0.0", indentString 0 ++ "# " ++ nm])
    ∧ bench_group b name fn ptr
        = (bench_create name b.out (b.indent + 2) ptr).2
          ++ (fn (bench_create name b.out (b.indent + 2) ptr).1).2
          ++ bench_compare_lines (fn (bench_create name b.out (b.indent + 2) ptr).1).1 := by
  refine ⟨rfl, rfl, rfl, ?_, ?_, rfl⟩
  · have hz : b.indent + 2 ≠ 0 := by omega
    simp [bench_create, hz]
  · intro nm o dat
    simp [bench_create]

/-- Witness for claim C8 at a concrete root suite (indent 0, sink 7)
with an empty group body. -/
theorem benc_claim_C8_witness :
    (bench_create "sub" benchRoot.out (benchRoot.indent + 2) none).1.out
        = benchRoot.out
    ∧ (bench_create "sub" benchRoot.out (benchRoot.indent + 2) none).1.indent
        = benchRoot.indent + 2
    ∧ (bench_create "sub" benchRoot.out (benchRoot.indent + 2) none).1.target_time
        = 1000000000
    ∧ (bench_create "sub" benchRoot.out (benchRoot.indent + 2) none).2
        = [indentString (benchRoot.indent + 2) ++ "# " ++ "sub"]
    ∧ (∀ (nm : String) (o : ℕ) (dat : Option ℕ),
        (bench_create nm o 0 dat).2
          = ["benc.h v1.0.0", indentString 0 ++ "# " ++ nm])
    ∧ bench_group benchRoot "sub" benchSubFn none
        = (bench_create "sub" benchRoot.out (benchRoot.indent + 2) none).2
          ++ (benchSubFn (bench_create "sub" benchRoot.out (benchRoot.indent + 2) none).1).2
          ++ bench_compare_lines
              (benchSubFn (bench_create "sub" benchRoot.out (benchRoot.indent + 2) none).1).1 :=
  benc_claim_C8 benchRoot "sub" benchSubFn none (by decide)

/-- Claim C9: the formatter repeatedly divides the value by 1000 while
it is at least 1000, counting levels, capped at 3 levels for times and 4
for counts, and prints the scaled value with 2 decimal places plus the
level's unit suffix; in particular `format(999, false) = "999.00"`,
`format(1500, false) = "1.50k"`, `format(999, true) = "999.00ns"` and
`format(1500000, true) = "1.50ms"`. -/
theorem benc_claim_C9 :
    bench_human_number 999 false = "999.00"
    ∧ bench_human_number 1500 false = "1.50k"
    ∧ bench_human_number 999 true = "999.00ns"
    ∧ bench_human_number 1500000 true = "1.50ms"
    ∧ (∀ (q : ℚ) (level cap : ℕ), q < 1000 → bhnLoop q level cap = (q, level))
    ∧ (∀ (q : ℚ) (level cap : ℕ), 1000 ≤ q → level + 1 ≤ cap →
        bhnLoop q level cap = bhnLoop (q / 1000) (level + 1) cap)
    ∧ (∀ (q : ℚ) (level cap : ℕ), 1000 ≤ q → cap < level + 1 →
        bhnLoop q level cap = (q, level + 1)) := by
  refine ⟨?_, ?_, ?_, ?_, ?_, ?_, ?_⟩
  · rw [bench_human_number, bhnLoop]
    norm_num [fmt2, round_eq, abs_of_nonneg]
    decide
  · rw [bench_human_number, bhnLoop, bhnLoop]
    norm_num [fmt2, round_eq, abs_of_nonneg]
    decide
  · rw [bench_human_number, bhnLoop]
    norm_num [fmt2, round_eq, abs_of_nonneg]
    decide
  · rw [bench_human_number, bhnLoop, bhnLoop, bhnLoop]
    norm_num [fmt2, round_eq, abs_of_nonneg]
    decide
  · intro q level cap h
    rw [bhnLoop, if_neg (not_le.mpr h)]
  · intro q level cap h h2
    rw [bhnLoop, if_pos h, if_pos h2]
  · intro q level cap h h2
    rw [bhnLoop, if_pos h, if_neg (by omega)]

/-- Witness for the loop laws of claim C9 at concrete inputs. -/
theorem benc_claim_C9_witness :
    bhnLoop 500 0 3 = (500, 0)
    ∧ bhnLoop 2500 0 3 = bhnLoop (2500 / 1000) 1 3
    ∧ bhnLoop 2500 3 3 = (2500, 4) :=
  ⟨benc_claim_C9.2.2.2.2.1 500 0 3 (by norm_num),
   benc_claim_C9.2.2.2.2.2.1 2500 0 3 (by norm_num) (by norm_num),
   benc_claim_C9.2.2.2.2.2.2 2500 3 3 (by norm_num) (by norm_num)⟩
